import Mathlib

/-!
Timerino.h : the build-time configuration header

`Timerino.h` consists of three object-like macro definitions and the comments
that document their legal values.  The header is embedded as a list of
preprocessor directives; processing the header folds the directives into a
macro table.  The meaning of each macro body is the one given by the comment
above its `#define`.
-/

namespace Timerino

/-! ## Preprocessor tokens, directives and the macro table -/

/-- A replacement token of an object-like macro: an integer literal such as
`0`, or an identifier such as `LOW`. -/
inductive Token where
  | num (n : Nat)
  | ident (s : String)
  deriving DecidableEq, Repr

/-- The directives of the preprocessor fragment a configuration header is
written in. -/
inductive Directive where
  | define (name : String) (body : Token)
  | undef (name : String)
  | error (msg : String)
  deriving DecidableEq, Repr

/-- The macro table: the most recent definition of a name comes first. -/
abbrev MacroTable := List (String × Token)

/-- The current replacement token of a macro name, if it is defined. -/
def lookupMacro : MacroTable → String → Option Token
  | [], _ => none
  | (k, v) :: rest, n => if k = n then some v else lookupMacro rest n

/-- Remove every definition of a macro name. -/
def eraseMacro : MacroTable → String → MacroTable
  | [], _ => []
  | (k, v) :: rest, n => if k = n then eraseMacro rest n else (k, v) :: eraseMacro rest n

/-- One directive: `#define` binds the name (replacing an earlier binding),
`#undef` removes it, `#error` stops the build with its message. -/
def processDirective (tbl : MacroTable) : Directive → Except String MacroTable
  | .define name body => .ok ((name, body) :: eraseMacro tbl name)
  | .undef name => .ok (eraseMacro tbl name)
  | .error msg => .error msg

/-- Process a header, directive by directive, stopping at the first failure. -/
def preprocess : List Directive → MacroTable → Except String MacroTable
  | [], tbl => .ok tbl
  | d :: ds, tbl =>
    match processDirective tbl d with
    | .ok tbl' => preprocess ds tbl'
    | .error msg => .error msg

/-! ## The header -/

/-- Display model selector, `#define MYMODEL 0`. -/
def MYMODEL : Token := .num 0

/-- Action signal selector, `#define ACTIONSIGNAL LOW`. -/
def ACTIONSIGNAL : Token := .ident "LOW"

/-- Persist-state flag, `#define EPR 0`. -/
def EPR : Token := .num 0

/-- The directives of `Timerino.h`, with the three replacement tokens the
user is invited to edit as parameters. -/
def headerWith (model signal epr : Token) : List Directive :=
  [ .define "MYMODEL" model,
    .define "ACTIONSIGNAL" signal,
    .define "EPR" epr ]

/-- `Timerino.h` as shipped. -/
def Timerino_h : List Directive := headerWith MYMODEL ACTIONSIGNAL EPR

/-- The macro table a translation unit sees after including the header. -/
def build (model signal epr : Token) : Except String MacroTable :=
  preprocess (headerWith model signal epr) []

/-! ## The documented meaning of the three settings -/

/-- The two hardware variants named in the comment above `MYMODEL`. -/
inductive DisplayModel where
  | DLSeries
  | CMGSeries
  deriving DecidableEq, Repr

/-- The two button edges named in the comment above `ACTIONSIGNAL`. -/
inductive ActionSignal where
  | triggerOnPress
  | triggerOnRelease
  deriving DecidableEq, Repr

/-- Meaning of a `MYMODEL` token: `0` is DL-series (7segment LCD), `1` is
CMG-series (16x2 matrix LCD). -/
def displayModelOf : Token → Option DisplayModel
  | .num 0 => some .DLSeries
  | .num 1 => some .CMGSeries
  | _ => none

/-- Meaning of an `ACTIONSIGNAL` token: with `LOW` the relay is (de)activated
on pushbutton release, with the other pin level, `HIGH`, on press. -/
def actionSignalOf : Token → Option ActionSignal
  | .ident s => if s = "LOW" then some .triggerOnRelease
                else if s = "HIGH" then some .triggerOnPress
                else none
  | .num _ => none

/-- Meaning of an `EPR` token: with `1` last mode and times are preserved at
power off, with `0` they are not. -/
def persistOf : Token → Option Bool
  | .num 0 => some false
  | .num 1 => some true
  | _ => none

/-- The legal replacement tokens of `MYMODEL`. -/
def legalModels : List Token := [.num 0, .num 1]

/-- The legal replacement tokens of `ACTIONSIGNAL`. -/
def legalSignals : List Token := [.ident "HIGH", .ident "LOW"]

/-- The legal replacement tokens of `EPR`. -/
def legalPersist : List Token := [.num 0, .num 1]

/-- The replacement token of a macro after a (successful) preprocessing run. -/
def macroValue (r : Except String MacroTable) (name : String) : Option Token :=
  match r with
  | .ok tbl => lookupMacro tbl name
  | .error _ => none

/-- The macro table after the shipped header. -/
def shipped : Except String MacroTable := preprocess Timerino_h []

/-- The configuration record the three macros stand for. -/
structure BuildConfiguration where
  displayModel : DisplayModel
  actionSignal : ActionSignal
  persistEepromState : Bool
  deriving DecidableEq, Repr

/-- Read the three settings off a macro table; `none` when a macro is missing
or its token has no documented meaning. -/
def configOf (tbl : MacroTable) : Option BuildConfiguration :=
  match lookupMacro tbl "MYMODEL", lookupMacro tbl "ACTIONSIGNAL", lookupMacro tbl "EPR" with
  | some m, some s, some e =>
    match displayModelOf m, actionSignalOf s, persistOf e with
    | some dm, some sig, some p => some ⟨dm, sig, p⟩
    | _, _, _ => none
  | _, _, _ => none

/-- The configuration a build with the given three tokens is compiled for. -/
def compile (model signal epr : Token) : Option BuildConfiguration :=
  match build model signal epr with
  | .ok tbl => configOf tbl
  | .error _ => none

/-- A choice of the three tokens is valid when each has a documented meaning. -/
def isValid (c : Token × Token × Token) : Bool :=
  (displayModelOf c.1).isSome && (actionSignalOf c.2.1).isSome && (persistOf c.2.2).isSome

/-- The product of the three legal value sets. -/
def validSelections : List (Token × Token × Token) :=
  List.product legalModels (List.product legalSignals legalPersist)

/-! ## The firmware that is built against the header -/

/-- Modelled from the spec: the firmware that includes `Timerino.h` (its start-up
code and its main loop) is missing from the source.  The spec's words are that
the three fields are set once, at firmware compilation, and that there is no
runtime instance, only a build-time constant set baked into the binary: the
firmware is any program over its own mutable state `σ`, reacting to inputs `ι`,
that receives the configuration as a constant. -/
structure Firmware (σ ι : Type) where
  setup : BuildConfiguration → σ
  loop : BuildConfiguration → ι → σ → σ

/-- Modelled from the spec: a state of the running device, the constant set
baked into the binary together with the firmware's mutable state. -/
structure Runtime (σ : Type) where
  config : BuildConfiguration
  mem : σ

/-- Modelled from the spec: power-on of a binary compiled for `cfg`. -/
def boot {σ ι : Type} (fw : Firmware σ ι) (cfg : BuildConfiguration) : Runtime σ :=
  { config := cfg, mem := fw.setup cfg }

/-- Modelled from the spec: one pass of the main loop on one input; the
constant set is carried over, the mutable state is whatever the firmware
computes. -/
def tick {σ ι : Type} (fw : Firmware σ ι) (r : Runtime σ) (i : ι) : Runtime σ :=
  { config := r.config, mem := fw.loop r.config i r.mem }

/-- Modelled from the spec: the state reached from power-on after a sequence
of inputs. -/
def run {σ ι : Type} (fw : Firmware σ ι) (cfg : BuildConfiguration) (inputs : List ι) :
    Runtime σ :=
  inputs.foldl (tick fw) (boot fw cfg)

/-! ## Helper lemmas -/

theorem build_eq (model signal epr : Token) :
    build model signal epr
      = .ok [("EPR", epr), ("ACTIONSIGNAL", signal), ("MYMODEL", model)] := rfl

theorem displayModelOf_isSome_iff (t : Token) :
    (displayModelOf t).isSome = true ↔ t ∈ legalModels := by
  cases t with
  | num n =>
    match n with
    | 0 => simp [displayModelOf, legalModels]
    | 1 => simp [displayModelOf, legalModels]
    | n + 2 => simp [displayModelOf, legalModels]
  | ident s => simp [displayModelOf, legalModels]

theorem persistOf_isSome_iff (t : Token) :
    (persistOf t).isSome = true ↔ t ∈ legalPersist := by
  cases t with
  | num n =>
    match n with
    | 0 => simp [persistOf, legalPersist]
    | 1 => simp [persistOf, legalPersist]
    | n + 2 => simp [persistOf, legalPersist]
  | ident s => simp [persistOf, legalPersist]

theorem actionSignalOf_isSome_iff (t : Token) :
    (actionSignalOf t).isSome = true ↔ t ∈ legalSignals := by
  cases t with
  | num n => simp [actionSignalOf, legalSignals]
  | ident s =>
    by_cases h1 : s = "LOW"
    · subst h1; decide
    · by_cases h2 : s = "HIGH"
      · subst h2; decide
      · simp [actionSignalOf, legalSignals, h1, h2]

theorem foldl_tick_config {σ ι : Type} (fw : Firmware σ ι) (inputs : List ι) (r : Runtime σ) :
    (inputs.foldl (tick fw) r).config = r.config := by
  induction inputs generalizing r with
  | nil => rfl
  | cons i rest ih => simp only [List.foldl_cons]; rw [ih]; rfl

theorem run_config {σ ι : Type} (fw : Firmware σ ι) (cfg : BuildConfiguration)
    (inputs : List ι) : (run fw cfg inputs).config = cfg := by
  unfold run; rw [foldl_tick_config]; rfl

theorem take_stable (model signal epr : Token) (k : Nat) (name : String) (v : Token)
    (h : macroValue (preprocess ((headerWith model signal epr).take k) []) name = some v) :
    macroValue (build model signal epr) name = some v := by
  rw [build_eq]
  match k, h with
  | 0, h => simp [headerWith, preprocess, macroValue, lookupMacro] at h
  | 1, h =>
    simp [headerWith, preprocess, processDirective, eraseMacro, macroValue, lookupMacro] at h
    obtain ⟨rfl, rfl⟩ := h
    rfl
  | 2, h =>
    simp [headerWith, preprocess, processDirective, eraseMacro, macroValue, lookupMacro] at h
    simp only [macroValue, lookupMacro]
    by_cases h1 : "ACTIONSIGNAL" = name
    · subst h1; simp at h; subst h; rfl
    · simp [h1] at h
      obtain ⟨rfl, rfl⟩ := h
      rfl
  | k + 3, h =>
    simpa [headerWith, build_eq] using h

/-! ## The claims -/

/-- C1: after the shipped header the macro `MYMODEL` has exactly one value of
the legal set, the token `0`, and `0` denotes the DL-series (7-segment)
variant, not the CMG-series (16x2 matrix) one. -/
theorem C1_mymodel_shipped :
    macroValue shipped "MYMODEL" = some MYMODEL ∧
    MYMODEL = .num 0 ∧
    (∃! v, v ∈ legalModels ∧ macroValue shipped "MYMODEL" = some v) ∧
    displayModelOf MYMODEL = some .DLSeries ∧
    displayModelOf MYMODEL ≠ some .CMGSeries := by
  refine ⟨rfl, rfl, ⟨.num 0, ⟨by decide, rfl⟩, ?_⟩, rfl, by decide⟩
  rintro v ⟨_, hv⟩
  have h0 : macroValue shipped "MYMODEL" = some (.num 0) := rfl
  rw [h0] at hv
  exact (Option.some.inj hv).symm

/-- C2, as stated, fails: with `#define MYMODEL 2`, a value outside the legal
set, the header is processed without error and `MYMODEL` is defined as `2`. -/
theorem C2_out_of_range_accepted :
    Token.num 2 ∉ legalModels ∧
    displayModelOf (.num 2) = none ∧
    build (.num 2) ACTIONSIGNAL EPR
      = .ok [("EPR", .num 0), ("ACTIONSIGNAL", .ident "LOW"), ("MYMODEL", .num 2)] ∧
    ¬ ∃ msg, build (.num 2) ACTIONSIGNAL EPR = .error msg := by
  refine ⟨by decide, rfl, rfl, ?_⟩
  rintro ⟨msg, h⟩
  rw [build_eq] at h
  cases h

/-- C2, amended: the header holds no check of `MYMODEL`.  For every value
outside the legal set, and whatever the other two settings are, processing the
header succeeds and leaves `MYMODEL` defined as exactly that value, which is
not one of the two tokens that denote a display variant. -/
theorem C2_header_passes_value_through (model signal epr : Token)
    (h : model ∉ legalModels) :
    (∃ tbl, build model signal epr = .ok tbl ∧ lookupMacro tbl "MYMODEL" = some model) ∧
    (∀ msg, build model signal epr ≠ .error msg) ∧
    displayModelOf model = none := by
  refine ⟨⟨_, build_eq model signal epr, rfl⟩, ?_, ?_⟩
  · intro msg hmsg
    rw [build_eq] at hmsg
    cases hmsg
  · have hn : ¬ (displayModelOf model).isSome = true :=
      fun hs => h ((displayModelOf_isSome_iff model).1 hs)
    cases hd : displayModelOf model with
    | none => rfl
    | some d => rw [hd] at hn; exact absurd rfl hn

/-- Witness of the amended C2 at `#define MYMODEL 2`. -/
theorem C2_header_passes_value_through_witness :
    Token.num 2 ∉ legalModels ∧
    ((∃ tbl, build (.num 2) ACTIONSIGNAL EPR = .ok tbl ∧
        lookupMacro tbl "MYMODEL" = some (.num 2)) ∧
     (∀ msg, build (.num 2) ACTIONSIGNAL EPR ≠ .error msg) ∧
     displayModelOf (.num 2) = none) :=
  ⟨by decide, C2_header_passes_value_through (.num 2) ACTIONSIGNAL EPR (by decide)⟩

/-- C3: the action signal has exactly two values, press-triggered and
release-triggered, written `HIGH` and `LOW`; `LOW` selects (de)activation on
pushbutton release; the shipped header defines `ACTIONSIGNAL` as `LOW`, so the
shipped configuration is the release-triggered one, not the press-triggered
one. -/
theorem C3_actionsignal_shipped :
    (∀ a : ActionSignal, a = .triggerOnPress ∨ a = .triggerOnRelease) ∧
    ActionSignal.triggerOnPress ≠ ActionSignal.triggerOnRelease ∧
    (∀ t, (actionSignalOf t).isSome = true ↔ t = .ident "HIGH" ∨ t = .ident "LOW") ∧
    actionSignalOf (.ident "LOW") = some .triggerOnRelease ∧
    actionSignalOf (.ident "LOW") ≠ some .triggerOnPress ∧
    ACTIONSIGNAL = .ident "LOW" ∧
    macroValue shipped "ACTIONSIGNAL" = some (.ident "LOW") ∧
    (compile MYMODEL ACTIONSIGNAL EPR).map (fun c => c.actionSignal)
      = some .triggerOnRelease ∧
    (compile MYMODEL ACTIONSIGNAL EPR).map (fun c => c.actionSignal)
      ≠ some .triggerOnPress := by
  refine ⟨?_, by decide, ?_, rfl, by decide, rfl, rfl, rfl, by decide⟩
  · intro a
    cases a
    · exact Or.inl rfl
    · exact Or.inr rfl
  · intro t
    rw [actionSignalOf_isSome_iff]
    simp [legalSignals]

/-- C4: the shipped header defines `EPR` as `0`, a member of the legal set
of the two tokens `0` and `1`; `0` means that last mode and times are not
preserved at power off, `1` that they are. -/
theorem C4_epr_shipped :
    macroValue shipped "EPR" = some EPR ∧
    EPR = .num 0 ∧
    EPR ∈ legalPersist ∧
    (∀ t, t ∈ legalPersist ↔ t = .num 0 ∨ t = .num 1) ∧
    persistOf EPR = some false ∧
    persistOf (.num 1) = some true ∧
    (compile MYMODEL ACTIONSIGNAL EPR).map (fun c => c.persistEepromState) = some false := by
  refine ⟨rfl, rfl, by decide, ?_, rfl, rfl, rfl⟩
  intro t
  simp [legalPersist]

/-- C5: the valid choices of the three settings are exactly the product of
the three legal value sets; there are exactly 8 of them; for each of them the
header is processed without error and yields a well-defined configuration,
different choices yielding different configurations; and the shipped choice
(`MYMODEL` 0, `ACTIONSIGNAL` LOW, `EPR` 0) is one of them. -/
theorem C5_eight_valid_configurations :
    (∀ c, isValid c = true ↔ c ∈ validSelections) ∧
    validSelections.Nodup ∧
    validSelections.length = 8 ∧
    (∀ c ∈ validSelections,
      (∃ tbl, build c.1 c.2.1 c.2.2 = .ok tbl) ∧ (compile c.1 c.2.1 c.2.2).isSome = true) ∧
    (validSelections.map (fun c => compile c.1 c.2.1 c.2.2)).Nodup ∧
    (MYMODEL, ACTIONSIGNAL, EPR) ∈ validSelections ∧
    compile MYMODEL ACTIONSIGNAL EPR = some ⟨.DLSeries, .triggerOnRelease, false⟩ := by
  refine ⟨?_, by decide, by decide, ?_, by decide, by decide, rfl⟩
  · rintro ⟨m, s, e⟩
    simp only [isValid, validSelections, Bool.and_eq_true, List.pair_mem_product,
      displayModelOf_isSome_iff, actionSignalOf_isSome_iff, persistOf_isSome_iff]
    tauto
  · intro c hc
    refine ⟨⟨_, build_eq c.1 c.2.1 c.2.2⟩, ?_⟩
    revert c
    decide

/-- C6: the header consists of `#define` directives only; once a macro has
received its value while the header is processed, it keeps that value to the
end of the header; and for every firmware compiled for the configuration the
header stands for, in every state reached from power-on, after any sequence of
inputs, the display model, the action signal and the persist-state flag are
the ones the three tokens chosen at compile time denote. -/
theorem C6_configuration_immutable (model signal epr : Token) (cfg : BuildConfiguration)
    (hc : compile model signal epr = some cfg) :
    (∀ d ∈ headerWith model signal epr, ∃ name body, d = Directive.define name body) ∧
    (∀ k name v,
      macroValue (preprocess ((headerWith model signal epr).take k) []) name = some v →
      macroValue (build model signal epr) name = some v) ∧
    (∀ (σ ι : Type) (fw : Firmware σ ι) (inputs : List ι),
      (run fw cfg inputs).config = cfg ∧
      displayModelOf model = some (run fw cfg inputs).config.displayModel ∧
      actionSignalOf signal = some (run fw cfg inputs).config.actionSignal ∧
      persistOf epr = some (run fw cfg inputs).config.persistEepromState) := by
  refine ⟨?_, fun k name v h => take_stable model signal epr k name v h, ?_⟩
  · intro d hd
    simp only [headerWith, List.mem_cons, List.mem_singleton, List.not_mem_nil, or_false] at hd
    rcases hd with rfl | rfl | rfl
    · exact ⟨_, _, rfl⟩
    · exact ⟨_, _, rfl⟩
    · exact ⟨_, _, rfl⟩
  · intro σ ι fw inputs
    rw [run_config]
    have hc2 : configOf [("EPR", epr), ("ACTIONSIGNAL", signal), ("MYMODEL", model)]
        = some cfg := hc
    have hl : configOf [("EPR", epr), ("ACTIONSIGNAL", signal), ("MYMODEL", model)]
        = (match displayModelOf model, actionSignalOf signal, persistOf epr with
           | some dm, some sig, some p => some ⟨dm, sig, p⟩
           | _, _, _ => none) := rfl
    rw [hl] at hc2
    cases hm : displayModelOf model with
    | none => rw [hm] at hc2; cases hc2
    | some dm =>
      cases hs : actionSignalOf signal with
      | none => rw [hm, hs] at hc2; cases hc2
      | some sig =>
        cases hp : persistOf epr with
        | none => rw [hm, hs, hp] at hc2; cases hc2
        | some p =>
          rw [hm, hs, hp] at hc2
          cases hc2
          exact ⟨rfl, rfl, rfl, rfl⟩

/-- Witness of C6 at the shipped header, for a firmware that counts the button
presses it has seen. -/
theorem C6_configuration_immutable_witness :
    compile MYMODEL ACTIONSIGNAL EPR = some ⟨.DLSeries, .triggerOnRelease, false⟩ ∧
    (run (⟨fun _ => 0, fun _ pressed n => if pressed then n + 1 else n⟩ : Firmware Nat Bool)
        ⟨.DLSeries, .triggerOnRelease, false⟩ [true, false, true]).config
      = ⟨.DLSeries, .triggerOnRelease, false⟩ :=
  ⟨rfl,
    ((C6_configuration_immutable MYMODEL ACTIONSIGNAL EPR
      ⟨.DLSeries, .triggerOnRelease, false⟩ rfl).2.2 Nat Bool
      ⟨fun _ => 0, fun _ pressed n => if pressed then n + 1 else n⟩ [true, false, true]).1⟩

end Timerino
